import Mathlib

/-!
Verification of the order-sizing and position-reconciliation logic of
`webhook_server.py` (sidemix/tradingview-HL).

Python floats are modelled as exact rationals (`ℚ`), Python `None`/missing
values as `Option`, and raised exceptions as `Except` values.  Each
definition mirrors one function of the source file; effectful calls to the
exchange (price fetch, position fetch, order submission) are modelled as an
explicit list of emitted `Effect`s or as an oracle argument.
-/

/-! ## Quantization (webhook_server.py lines 130-172) -/

/-- Mirror of `floor_to_step` (lines 130-133): if the step is nonpositive the
value is returned unchanged, otherwise the value is floored to a multiple of
the step. -/
def floor_to_step (value step : ℚ) : ℚ :=
  if step ≤ 0 then value else (⌊value / step⌋ : ℚ) * step

/-- Modelled from the spec: the final re-validation in `clamp_amount`
(line 154) calls ccxt's `amount_to_precision`, an external library function
that is not part of this repository.  The spec describes it as a defensive
double-rounding of an already-quantized value, so it is modelled as the
identity. -/
def amount_to_precision (x : ℚ) : ℚ := x

/-- Mirror of `clamp_amount` (lines 136-156), with the per-symbol market
metadata `(amount_step, min_amount)` passed explicitly: floor to the step,
bump a nonpositive result to one step, then raise to the minimum amount. -/
def clamp_amount (amount_step min_amount raw_amount : ℚ) : ℚ :=
  let floored := floor_to_step raw_amount amount_step
  let floored1 := if floored ≤ 0 then amount_step else floored
  let floored2 := if floored1 < min_amount then min_amount else floored1
  amount_to_precision floored2

/-- Error taxonomy of the webhook handler: the three `except` clauses of
`tradingview` (lines 456-463) distinguish `ValueError`, `ccxt.BaseError`
and every other exception (which includes `RuntimeError`). -/
inductive AppError where
  | valueError : String → AppError
  | ccxtError : String → AppError
  | runtimeError : String → AppError
deriving DecidableEq, Repr

/-- HTTP status produced by the handler's `except` clauses (lines 456-463):
`ValueError` and `ccxt.BaseError` map to 400, anything else to 500. -/
def statusOf : AppError → Nat
  | AppError.valueError _ => 400
  | AppError.ccxtError _ => 400
  | AppError.runtimeError _ => 500

/-- Mirror of `compute_amount_from_notional` (lines 159-172), with the
market metadata and the fetched last price passed explicitly.  The
`ValueError` branch corresponds to the `raise ValueError` at line 168. -/
def compute_amount_from_notional (amount_step min_amount px notional : ℚ) :
    Except AppError ℚ :=
  let raw_amt := notional / px
  let amt := clamp_amount amount_step min_amount raw_amt
  let min_notional := min_amount * px
  if amt ≤ 0 ∨ notional < min_notional then
    Except.error (AppError.valueError "notional below minimum")
  else
    Except.ok amt

/-! ## Lemmas about `floor_to_step` -/

lemma floor_to_step_of_nonpos (v step : ℚ) (h : step ≤ 0) :
    floor_to_step v step = v := by
  simp [floor_to_step, h]

lemma floor_to_step_le_self (v step : ℚ) (hs : 0 < step) :
    floor_to_step v step ≤ v := by
  unfold floor_to_step
  rw [if_neg (not_le.mpr hs)]
  calc (⌊v / step⌋ : ℚ) * step ≤ (v / step) * step :=
        mul_le_mul_of_nonneg_right (Int.floor_le _) hs.le
    _ = v := div_mul_cancel₀ v hs.ne'

lemma le_floor_to_step_of_mul_le (v step : ℚ) (hs : 0 < step) (k : ℤ)
    (h : (k : ℚ) * step ≤ v) : (k : ℚ) * step ≤ floor_to_step v step := by
  unfold floor_to_step
  rw [if_neg (not_le.mpr hs)]
  have hk : (k : ℚ) ≤ v / step := (le_div_iff₀ hs).mpr h
  have hk2 : k ≤ ⌊v / step⌋ := Int.le_floor.mpr hk
  exact mul_le_mul_of_nonneg_right (by exact_mod_cast hk2) hs.le

lemma floor_to_step_int_mul (step : ℚ) (hs : 0 < step) (k : ℤ) :
    floor_to_step ((k : ℚ) * step) step = (k : ℚ) * step := by
  unfold floor_to_step
  rw [if_neg (not_le.mpr hs), mul_div_assoc, div_self hs.ne', mul_one,
    Int.floor_intCast]

lemma floor_to_step_exists_int (v step : ℚ) (hs : 0 < step) :
    ∃ k : ℤ, floor_to_step v step = (k : ℚ) * step := by
  refine ⟨⌊v / step⌋, ?_⟩
  unfold floor_to_step
  rw [if_neg (not_le.mpr hs)]

lemma floor_to_step_fixed (v step : ℚ) (hs : 0 < step) :
    floor_to_step (floor_to_step v step) step = floor_to_step v step := by
  obtain ⟨k, hk⟩ := floor_to_step_exists_int v step hs
  rw [hk, floor_to_step_int_mul step hs k]

lemma step_le_floor_to_step_of_pos (v step : ℚ) (hs : 0 < step)
    (h : 0 < floor_to_step v step) : step ≤ floor_to_step v step := by
  unfold floor_to_step at h ⊢
  rw [if_neg (not_le.mpr hs)] at h ⊢
  have hn : 0 < (⌊v / step⌋ : ℚ) := by
    by_contra hcon
    push_neg at hcon
    nlinarith
  have hn1 : (1 : ℤ) ≤ ⌊v / step⌋ := by exact_mod_cast hn
  have : (1 : ℚ) ≤ (⌊v / step⌋ : ℚ) := by exact_mod_cast hn1
  nlinarith

lemma floor_to_step_pos_of_step_le (step minA : ℚ) (hs : 0 < step)
    (h : step ≤ minA) : 0 < floor_to_step minA step := by
  have h1 : (1 : ℚ) * step ≤ minA := by linarith
  have := le_floor_to_step_of_mul_le minA step hs 1 (by exact_mod_cast h1)
  have hstep : (0 : ℚ) < (1 : ℚ) * step := by linarith
  calc (0 : ℚ) < (1 : ℚ) * step := hstep
    _ ≤ floor_to_step minA step := by exact_mod_cast this

/-! ## Lemmas about `clamp_amount` -/

lemma clamp_amount_ge_min (step minA raw : ℚ) :
    minA ≤ clamp_amount step minA raw := by
  simp only [clamp_amount, amount_to_precision]
  split_ifs <;> linarith

lemma clamp_amount_pos (step minA raw : ℚ) (hs : 0 < step) :
    0 < clamp_amount step minA raw := by
  simp only [clamp_amount, amount_to_precision]
  split_ifs with h1 h2 h3 <;> linarith

lemma clamp_amount_min_self (step minA : ℚ) (hs : 0 < step)
    (hm : step ≤ minA) : clamp_amount step minA minA = minA := by
  have h1 : 0 < floor_to_step minA step :=
    floor_to_step_pos_of_step_le step minA hs hm
  have h2 : floor_to_step minA step ≤ minA := floor_to_step_le_self minA step hs
  simp only [clamp_amount, amount_to_precision]
  rw [if_neg (not_le.mpr h1)]
  by_cases hlt : floor_to_step minA step < minA
  · rw [if_pos hlt]
  · rw [if_neg hlt]
    push_neg at hlt
    linarith

lemma clamp_amount_step_self (step minA : ℚ) (hs : 0 < step)
    (hm : ¬ step < minA) : clamp_amount step minA step = step := by
  have hfix : floor_to_step step step = step := by
    have := floor_to_step_int_mul step hs 1
    simpa using this
  simp only [clamp_amount, amount_to_precision]
  rw [hfix, if_neg (not_le.mpr hs), if_neg hm]

lemma clamp_amount_fixed (step minA y : ℚ)
    (hfix : floor_to_step y step = y) (hy : 0 < y) (hm : ¬ y < minA) :
    clamp_amount step minA y = y := by
  simp only [clamp_amount, amount_to_precision]
  rw [hfix, if_neg (not_le.mpr hy), if_neg hm]

/-! ## Claim theorems about quantization -/

/-- C2: `clamp_amount` floors `raw_amount` to the greatest multiple of
`amount_step` at or below it; a nonpositive floored value is bumped to
exactly one `amount_step` (then raised to `min_amount` if still below it);
a positive floored value still below `min_amount` is raised to exactly
`min_amount`; a positive floored value at or above `min_amount` is
returned as is; and the result is always at least `min_amount` and
strictly positive — never zero. -/
theorem clamp_amount_correct (step minA raw : ℚ) (hs : 0 < step) :
    (floor_to_step raw step ≤ raw
      ∧ (∃ k : ℤ, floor_to_step raw step = (k : ℚ) * step)
      ∧ ∀ k : ℤ, (k : ℚ) * step ≤ raw → (k : ℚ) * step ≤ floor_to_step raw step)
    ∧ (0 < floor_to_step raw step → minA ≤ floor_to_step raw step →
        clamp_amount step minA raw = floor_to_step raw step)
    ∧ (0 < floor_to_step raw step → floor_to_step raw step < minA →
        clamp_amount step minA raw = minA)
    ∧ (floor_to_step raw step ≤ 0 →
        clamp_amount step minA raw = if step < minA then minA else step)
    ∧ minA ≤ clamp_amount step minA raw
    ∧ 0 < clamp_amount step minA raw := by
  refine ⟨⟨floor_to_step_le_self raw step hs,
      floor_to_step_exists_int raw step hs,
      fun k hk => le_floor_to_step_of_mul_le raw step hs k hk⟩, ?_, ?_, ?_,
      clamp_amount_ge_min step minA raw, clamp_amount_pos step minA raw hs⟩
  · intro hpos hge
    simp only [clamp_amount, amount_to_precision]
    rw [if_neg (not_le.mpr hpos), if_neg (not_lt.mpr hge)]
  · intro hpos hlt
    simp only [clamp_amount, amount_to_precision]
    rw [if_neg (not_le.mpr hpos), if_pos hlt]
  · intro hnp
    simp only [clamp_amount, amount_to_precision]
    rw [if_pos hnp]

lemma floor_to_step_eval_half : floor_to_step (1/2 : ℚ) (1/100) = 1/2 := by
  unfold floor_to_step
  rw [if_neg (by norm_num : ¬ ((1:ℚ)/100 ≤ 0))]
  have h50 : ((1:ℚ)/2) / (1/100) = ((50 : ℤ) : ℚ) := by norm_num
  rw [h50, Int.floor_intCast]
  norm_num

lemma floor_to_step_eval_three : floor_to_step (3/100 : ℚ) (1/100) = 3/100 := by
  unfold floor_to_step
  rw [if_neg (by norm_num : ¬ ((1:ℚ)/100 ≤ 0))]
  have h3 : ((3:ℚ)/100) / (1/100) = ((3 : ℤ) : ℚ) := by norm_num
  rw [h3, Int.floor_intCast]
  norm_num

/-- Witness for C2: at `amount_step = min_amount = 1/100`,
`raw_amount = 1/2` the floored value is returned as is and is positive;
at `amount_step = 1/100`, `min_amount = 1/10`, `raw_amount = 3/100` the
positive floored value `3/100` is below the minimum and is raised to
exactly `min_amount = 1/10`. -/
theorem clamp_amount_correct_witness :
    clamp_amount (1/100) (1/100) (1/2) = floor_to_step (1/2) (1/100)
    ∧ 0 < clamp_amount (1/100) (1/100) (1/2)
    ∧ clamp_amount (1/100) (1/10) (3/100) = 1/10 := by
  have h := clamp_amount_correct (1/100) (1/100) (1/2) (by norm_num)
  have h2 := clamp_amount_correct (1/100) (1/10) (3/100) (by norm_num)
  exact ⟨h.2.1 (by rw [floor_to_step_eval_half]; norm_num)
    (by rw [floor_to_step_eval_half]; norm_num), h.2.2.2.2.2,
    h2.2.2.1 (by rw [floor_to_step_eval_three]; norm_num)
      (by rw [floor_to_step_eval_three]; norm_num)⟩

/-- C9: quantization is idempotent — applying `clamp_amount` to its own
output returns that output unchanged, for every market metadata pair and
every raw amount. -/
theorem clamp_amount_idem (step minA x : ℚ) :
    clamp_amount step minA (clamp_amount step minA x)
      = clamp_amount step minA x := by
  rcases le_or_lt step 0 with hs | hs
  · simp only [clamp_amount, amount_to_precision,
      floor_to_step_of_nonpos _ step hs]
    split_ifs <;> first | rfl | linarith
  · by_cases hF : floor_to_step x step ≤ 0
    · by_cases hm : step < minA
      · have hx : clamp_amount step minA x = minA := by
          simp only [clamp_amount, amount_to_precision]
          rw [if_pos hF, if_pos hm]
        rw [hx, clamp_amount_min_self step minA hs hm.le]
      · have hx : clamp_amount step minA x = step := by
          simp only [clamp_amount, amount_to_precision]
          rw [if_pos hF, if_neg hm]
        rw [hx, clamp_amount_step_self step minA hs hm]
    · push_neg at hF
      by_cases hm : floor_to_step x step < minA
      · have hx : clamp_amount step minA x = minA := by
          simp only [clamp_amount, amount_to_precision]
          rw [if_neg (not_le.mpr hF), if_pos hm]
        have hstep_le : step ≤ minA :=
          le_trans (step_le_floor_to_step_of_pos x step hs hF) hm.le
        rw [hx, clamp_amount_min_self step minA hs hstep_le]
      · have hx : clamp_amount step minA x = floor_to_step x step := by
          simp only [clamp_amount, amount_to_precision]
          rw [if_neg (not_le.mpr hF), if_neg hm]
        rw [hx, clamp_amount_fixed step minA (floor_to_step x step)
          (floor_to_step_fixed x step hs) hF hm]

/-- C3: `compute_amount_from_notional` divides the notional by the last
price, quantizes, and then rejects with a `ValueError` (the
below-minimum-notional error) exactly when `notional < min_amount * px`;
otherwise it returns the quantized amount. -/
theorem compute_amount_from_notional_spec (step minA px notional : ℚ)
    (hs : 0 < step) :
    (compute_amount_from_notional step minA px notional
        = Except.error (AppError.valueError "notional below minimum")
      ↔ notional < minA * px)
    ∧ (minA * px ≤ notional →
        compute_amount_from_notional step minA px notional
          = Except.ok (clamp_amount step minA (notional / px))) := by
  have hpos : 0 < clamp_amount step minA (notional / px) :=
    clamp_amount_pos step minA (notional / px) hs
  constructor
  · constructor
    · intro h
      simp only [compute_amount_from_notional] at h
      by_cases hc : clamp_amount step minA (notional / px) ≤ 0
        ∨ notional < minA * px
      · rcases hc with hc | hc
        · linarith
        · exact hc
      · rw [if_neg hc] at h
        exact absurd h (by simp)
    · intro h
      simp only [compute_amount_from_notional]
      rw [if_pos (Or.inr h)]
  · intro h
    simp only [compute_amount_from_notional]
    rw [if_neg]
    push_neg
    exact ⟨hpos, h⟩

/-- Witness for C3: with `last_price = 100`, `notional = 50`,
`amount_step = min_amount = 1/100` the call returns `1/2`, and with
`last_price = 50000`, `min_amount = 1/1000`, `notional = 10` it rejects
(since 10 < 50). -/
theorem compute_amount_from_notional_spec_witness :
    compute_amount_from_notional (1/100) (1/100) 100 50 = Except.ok (1/2)
    ∧ compute_amount_from_notional (1/10000) (1/1000) 50000 10
        = Except.error (AppError.valueError "notional below minimum") := by
  constructor
  · have h := (compute_amount_from_notional_spec (1/100) (1/100) 100 50
      (by norm_num)).2 (by norm_num)
    have hc : clamp_amount (1/100) (1/100) ((50 : ℚ) / 100) = 1/2 := by
      simp only [clamp_amount, amount_to_precision]
      rw [show ((50:ℚ)/100) = (1/2 : ℚ) by norm_num, floor_to_step_eval_half]
      norm_num
    rw [h, hc]
  · exact (compute_amount_from_notional_spec (1/10000) (1/1000) 50000 10
      (by norm_num)).1.mpr (by norm_num)

/-! ## Position state interpretation (webhook_server.py lines 176-247)

A raw gateway position row is modelled field by field.  A numeric field of
the JSON row is `none` when the key is absent or its value is `None`/`""`
(the `key in p and p[key] not in (None, "")` guard), `some none` when it is
present but `float(...)` raises, and `some (some q)` when it parses to `q`.
The `info_` fields model the nested `p["info"]` dictionary, whose guard is
only `key in info` but whose failing `float` conversions are likewise
swallowed by `except: pass`. -/

structure PosRow where
  symbol : String
  contracts : Option (Option ℚ)
  contractSize : Option (Option ℚ)
  size : Option (Option ℚ)
  amount : Option (Option ℚ)
  side : Option String
  info_sz : Option (Option ℚ)
  info_totalSz : Option (Option ℚ)
  info_positionSize : Option (Option ℚ)
  entryPrice : Option (Option ℚ)
  avgPrice : Option (Option ℚ)
  average : Option (Option ℚ)
deriving DecidableEq, Repr

/-- First field in the list whose value is present and parses to a float;
mirrors the repeated `for key in ...: try: float(p[key]); break; except:
pass` loops. -/
def firstParse : List (Option (Option ℚ)) → Option ℚ
  | [] => none
  | f :: rest =>
    match f with
    | some (some v) => some v
    | _ => firstParse rest

/-- Fallback size from the `info` dict (lines 203-212): the absolute value
of the first parseable field among `sz`, `totalSz`, `positionSize`. -/
def info_size (r : PosRow) : Option ℚ :=
  match firstParse [r.info_sz, r.info_totalSz, r.info_positionSize] with
  | some v => some |v|
  | none => none

/-- Size resolution (lines 194-212): first parseable normalized field among
`contracts`, `contractSize`, `size`, `amount`; if that leaves `size` falsy
(`None` or `0.0`) fall back to the `info` magnitudes. -/
def row_size (r : PosRow) : Option ℚ :=
  match firstParse [r.contracts, r.contractSize, r.size, r.amount] with
  | some v =>
    if v = 0 then
      match info_size r with
      | some w => some w
      | none => some v
    else some v
  | none => info_size r

/-- Signed-size candidates used for side inference (lines 218-225):
`contracts`, `size`, `amount` (note: not `contractSize`). -/
def signed_size (r : PosRow) : Option ℚ :=
  firstParse [r.contracts, r.size, r.amount]

/-- Side inference from a signed size (lines 226-230); when the signed size
is unavailable or zero, the original falsy side value is kept. -/
def row_side_inferred (r : PosRow) (orig : Option String) : Option String :=
  match signed_size r with
  | some v => if 0 < v then some "long" else if v < 0 then some "short" else orig
  | none => orig

/-- Side resolution (lines 214-230): keep a truthy `side` field, otherwise
infer it from a signed size field. -/
def row_side (r : PosRow) : Option String :=
  match r.side with
  | some s => if s = "" then row_side_inferred r (some s) else some s
  | none => row_side_inferred r none

/-- Entry price resolution (lines 232-239). -/
def row_entry (r : PosRow) : Option ℚ :=
  firstParse [r.entryPrice, r.avgPrice, r.average]

/-- Canonical position record returned by `get_position` (line 186). -/
structure Position where
  side : Option String
  size : ℚ
  entryPrice : Option ℚ
deriving DecidableEq, Repr

/-- Mirror of `get_position` (lines 176-247): scan the rows for the first
one matching the symbol whose resolved size is truthy and positive; a
failed fetch is the empty row list, yielding the flat default. -/
def get_position (symbol : String) : List PosRow → Position
  | [] => ⟨none, 0, none⟩
  | r :: rest =>
    if r.symbol = symbol then
      match row_size r with
      | some s =>
        if 0 < s then ⟨row_side r, s, row_entry r⟩
        else get_position symbol rest
      | none => get_position symbol rest
    else get_position symbol rest

/-- Amended C7: `get_position` is total over arbitrary row shapes and
satisfies the forward invariant — a returned size of zero forces a FLAT
(`none`) side, and the size is never negative (equivalently a non-FLAT side
comes with a positive size).  The converse direction of the claimed
invariant is refuted separately. -/
theorem get_position_flat_invariant (symbol : String) (rows : List PosRow) :
    ((get_position symbol rows).size = 0 → (get_position symbol rows).side = none)
    ∧ 0 ≤ (get_position symbol rows).size := by
  induction rows with
  | nil => exact ⟨fun _ => rfl, le_refl 0⟩
  | cons r rest ih =>
    simp only [get_position]
    by_cases hsym : r.symbol = symbol
    · rw [if_pos hsym]
      cases h : row_size r with
      | none => exact ih
      | some s =>
        dsimp only
        by_cases hpos : 0 < s
        · rw [if_pos hpos]
          exact ⟨fun h0 => absurd h0 hpos.ne', hpos.le⟩
        · rw [if_neg hpos]
          exact ih
    · rw [if_neg hsym]
      exact ih

/-- Witness for the amended C7 on the empty (failed-fetch) response. -/
theorem get_position_flat_invariant_witness :
    (get_position "BTC/USDC:USDC" []).side = none
    ∧ 0 ≤ (get_position "BTC/USDC:USDC" []).size :=
  ⟨(get_position_flat_invariant "BTC/USDC:USDC" []).1 rfl,
    (get_position_flat_invariant "BTC/USDC:USDC" []).2⟩

/-- Gateway row carrying the position size only in the unsigned
`info["sz"]` field, with no `side` field and no signed normalized size
field — a shape the defensive parser is required to tolerate. -/
def orphan_size_row : PosRow :=
  ⟨"BTC", none, none, none, none, none, some (some 3), none, none, none,
    none, none⟩

/-- Counterexample to C7 as stated: on `orphan_size_row` the parser
returns `size = 3` with `side = none` (FLAT), so `size == 0 ⇔ side == FLAT`
fails in the right-to-left direction. -/
theorem get_position_invariant_counterexample :
    get_position "BTC" [orphan_size_row] = ⟨none, 3, none⟩
    ∧ decide (((get_position "BTC" [orphan_size_row]).size = 0)
        ↔ ((get_position "BTC" [orphan_size_row]).side = none)) = false := by
  constructor
  · rfl
  · rfl

/-! ## Price fetch (webhook_server.py lines 90-105) -/

/-- Python truthiness for an optional float: keep the value only when it is
present and nonzero. -/
def truthyQ : Option ℚ → Option ℚ
  | none => none
  | some v => if v = 0 then none else some v

/-- Mirror of `fetch_last` (lines 90-105): try the ticker's truthy
`last`-or-`close` price (a raised ticker exception is the all-`none`
ticker), else the order-book midpoint of truthy best bid and ask, else
raise `RuntimeError`.  The error string is the message at line 105. -/
def fetch_last (last close bid ask : Option ℚ) : Except AppError ℚ :=
  match truthyQ last with
  | some px => Except.ok px
  | none =>
    match truthyQ close with
    | some px => Except.ok px
    | none =>
      match truthyQ bid, truthyQ ask with
      | some b, some a => Except.ok ((b + a) / 2)
      | _, _ => Except.error (AppError.runtimeError "Could not fetch last price")

/-- Amended C8: whenever `fetch_last` fails (no trade price and no usable
midpoint), the error it raises is a `RuntimeError`, which the webhook's
exception dispatch (lines 456-463) surfaces as HTTP 500 — not 400, since a
`RuntimeError` is neither a `ValueError` nor a `ccxt.BaseError`. -/
theorem fetch_last_failure_is_500 (last close bid ask : Option ℚ)
    (e : AppError) (h : fetch_last last close bid ask = Except.error e) :
    statusOf e = 500 := by
  unfold fetch_last at h
  cases hl : truthyQ last with
  | some px => rw [hl] at h; exact absurd h (by simp)
  | none =>
    rw [hl] at h
    cases hc : truthyQ close with
    | some px => rw [hc] at h; exact absurd h (by simp)
    | none =>
      rw [hc] at h
      cases hb : truthyQ bid with
      | some b =>
        rw [hb] at h
        cases ha : truthyQ ask with
        | some a => rw [ha] at h; exact absurd h (by simp)
        | none =>
          rw [ha] at h
          cases h
          rfl
      | none =>
        rw [hb] at h
        cases ha : truthyQ ask with
        | some a => rw [ha] at h; cases h; rfl
        | none => rw [ha] at h; cases h; rfl

/-- Witness for the amended C8 on the fully-unavailable market data. -/
theorem fetch_last_failure_is_500_witness :
    statusOf (AppError.runtimeError "Could not fetch last price") = 500 :=
  fetch_last_failure_is_500 none none none none _ rfl

/-- Counterexample to C8 as stated: with neither a trade price nor a
usable midpoint, `fetch_last` raises the `RuntimeError`, whose surfaced
HTTP status is 500 and not the claimed 400. -/
theorem fetch_last_status_counterexample :
    fetch_last none none none none
      = Except.error (AppError.runtimeError "Could not fetch last price")
    ∧ statusOf (AppError.runtimeError "Could not fetch last price") = 500
    ∧ decide (statusOf (AppError.runtimeError "Could not fetch last price")
        = 400) = false :=
  ⟨rfl, rfl, rfl⟩

/-! ## Orders and the webhook decision logic (lines 250-270, 418-453) -/

/-- Order side submitted to the gateway (`buy`/`sell`). -/
inductive OrdSide where
  | buy
  | sell
deriving DecidableEq, Repr

/-- Order request as assembled by the handler: side, base amount, and
whether the `reduceOnly` parameter was attached (lines 260, 267). -/
structure OrderReq where
  side : OrdSide
  amount : ℚ
  reduceOnly : Bool
deriving DecidableEq, Repr

/-- Observable exchange interactions of one webhook request. -/
inductive Effect where
  | fetchPosition
  | fetchLast
  | submitOrder : OrderReq → Effect
deriving DecidableEq, Repr

/-- Python truthiness of an optional string (`None` and `""` are falsy). -/
def truthyS : Option String → Bool
  | none => false
  | some s => !(s == "")

/-- Mirror of `reduce_only_close` (lines 250-262): no order when the side
to close is falsy or the size is nonpositive; otherwise a `reduceOnly`
market order on the opposite side for the full size. -/
def reduce_only_close (side_to_close : Option String) (sz : ℚ) :
    Option OrderReq :=
  if truthyS side_to_close = false ∨ sz ≤ 0 then none
  else some ⟨(if side_to_close = some "long" then OrdSide.sell else OrdSide.buy),
    sz, true⟩

/-- Exchange interactions of `reduce_only_close`: the reference-price fetch
(line 259) happens only after the early-return guard. -/
def reduce_only_close_effects (side_to_close : Option String) (sz : ℚ) :
    List Effect :=
  match reduce_only_close side_to_close sz with
  | none => []
  | some o => [Effect.fetchLast, Effect.submitOrder o]

/-- Mirror of `place_market` (lines 265-270): a non-reduce-only market
order (its params carry only slippage and tif). -/
def place_market (side : OrdSide) (amount : ℚ) : OrderReq :=
  ⟨side, amount, false⟩

/-- Exchange interactions of `place_market`: fetch a reference price, then
submit exactly one order. -/
def place_market_effects (side : OrdSide) (amount : ℚ) : List Effect :=
  [Effect.fetchLast, Effect.submitOrder (place_market side amount)]

/-- Order word for a desired position side (lines 431, 436). -/
def side_word (desired_side : String) : OrdSide :=
  if desired_side = "long" then OrdSide.buy else OrdSide.sell

/-- Mirror of the position-reconciliation block of `tradingview`
(lines 418-437): fetch the position, close an opposite-side position
completely, then open the desired side — or, on the same side, add to the
position (the two branches at lines 430-437 submit the identical order and
differ only in which response field records it). -/
def tradingview_effects (pos : Position) (desired_side : String)
    (desired_amt : ℚ) : List Effect :=
  Effect.fetchPosition ::
    ((if truthyS pos.side = true ∧ pos.side ≠ some desired_side ∧ 0 < pos.size
        then reduce_only_close_effects pos.side pos.size
        else []) ++
      (if truthyS pos.side = false ∨ pos.side ≠ some desired_side
        then place_market_effects (side_word desired_side) desired_amt
        else place_market_effects (side_word desired_side) desired_amt))

/-- Orders submitted during a request, in submission sequence. -/
def submitted_orders (effs : List Effect) : List OrderReq :=
  effs.filterMap fun e =>
    match e with
    | Effect.submitOrder o => some o
    | _ => none

/-- Number of position fetches performed during a request. -/
def position_fetch_count (effs : List Effect) : Nat :=
  (effs.filter fun e =>
    match e with
    | Effect.fetchPosition => true
    | _ => false).length

/-- Keys of the JSON success response of `tradingview` (lines 439-453). -/
def tradingview_response_keys : List String :=
  ["status", "symbol", "desired_side", "desired_amount", "tif",
    "notional_mode", "effective_notional_used", "actions", "debug"]

/-- C1: on an opposed signal (existing position on the opposite side of the
signal), the handler submits exactly two orders in sequence — first a
reduce-only order on the opposite side of the current position for exactly
the position's size, then a non-reduce-only opening order in the signal's
direction for the target amount, close before open. -/
theorem flip_submits_close_then_open (pside dside : String) (sz amt : ℚ)
    (hopp : (pside = "short" ∧ dside = "long")
      ∨ (pside = "long" ∧ dside = "short"))
    (hsz : 0 < sz) :
    submitted_orders (tradingview_effects ⟨some pside, sz, none⟩ dside amt)
      = [⟨side_word dside, sz, true⟩, ⟨side_word dside, amt, false⟩] := by
  rcases hopp with ⟨h1, h2⟩ | ⟨h1, h2⟩ <;> subst h1 <;> subst h2 <;>
    simp [tradingview_effects, reduce_only_close_effects, reduce_only_close,
      place_market_effects, place_market, submitted_orders, truthyS,
      side_word, not_le.mpr hsz, hsz]

/-- Witness for C1 at `Position(SHORT, 5)` and a buy signal with target 3:
the orders are `(buy, 5, reduce_only)` then `(buy, 3, not reduce_only)`. -/
theorem flip_submits_close_then_open_witness :
    submitted_orders (tradingview_effects ⟨some "short", 5, none⟩ "long" 3)
      = [⟨OrdSide.buy, 5, true⟩, ⟨OrdSide.buy, 3, false⟩] := by
  have h := flip_submits_close_then_open "short" "long" 5 3
    (Or.inl ⟨rfl, rfl⟩) (by norm_num)
  simpa [side_word] using h

/-- Counterexample to C4 as stated: at `Position(LONG, 3)` with an aligned
buy signal of target 3, the handler submits one additive order rather than
zero orders. -/
theorem aligned_noop_counterexample :
    submitted_orders (tradingview_effects ⟨some "long", 3, none⟩ "long" 3)
      = [⟨OrdSide.buy, 3, false⟩]
    ∧ decide (submitted_orders (tradingview_effects ⟨some "long", 3, none⟩
        "long" 3) = []) = false :=
  ⟨rfl, rfl⟩

/-- Amended C4: on an aligned signal the handler is not a no-op — it
submits exactly one non-reduce-only order in the signal's direction for the
target amount (the code's chosen aligned policy is to add to the
position). -/
theorem aligned_adds_single_order (side : String) (sz amt : ℚ) :
    submitted_orders (tradingview_effects ⟨some side, sz, none⟩ side amt)
      = [⟨side_word side, amt, false⟩] := by
  simp [tradingview_effects, reduce_only_close_effects, place_market_effects,
    place_market, submitted_orders, ite_self]

/-- Counterexample to C5 as stated: the full effect trace of the flip at
`Position(SHORT, 5)` / buy target 3 contains no position fetch between the
closing and the opening submission (the single position fetch precedes
both), and the success response has no `warning` key to surface
`not_flat`. -/
theorem flip_has_no_poll_counterexample :
    tradingview_effects ⟨some "short", 5, none⟩ "long" 3
      = [Effect.fetchPosition, Effect.fetchLast,
          Effect.submitOrder ⟨OrdSide.buy, 5, true⟩, Effect.fetchLast,
          Effect.submitOrder ⟨OrdSide.buy, 3, false⟩]
    ∧ position_fetch_count (tradingview_effects ⟨some "short", 5, none⟩
        "long" 3) = 1
    ∧ tradingview_response_keys.contains "warning" = false :=
  ⟨rfl, rfl, rfl⟩

/-- Amended C5: the handler never polls for flatness — every request
performs exactly one position fetch, before any order is submitted, and
the success response contains no `warning` field; after the close the
opening order is submitted immediately. -/
theorem no_flat_poll (pos : Position) (dside : String) (amt : ℚ) :
    position_fetch_count (tradingview_effects pos dside amt) = 1
    ∧ tradingview_response_keys.contains "warning" = false := by
  refine ⟨?_, rfl⟩
  unfold tradingview_effects position_fetch_count reduce_only_close_effects
    place_market_effects
  cases reduce_only_close pos.side pos.size with
  | none => split_ifs <;> rfl
  | some o => split_ifs <;> rfl

/-! ## Order submission orchestration (webhook_server.py lines 265-270) -/

/-- Outcome of one gateway `create_order` attempt: accepted, rejected for a
transient reason (reference-price drift, no immediate match) or rejected
permanently (auth, margin, open-interest cap). -/
inductive GwResult where
  | ok
  | rejected_transient
  | rejected_permanent
deriving DecidableEq, Repr

/-- Submission structure of `place_market` (lines 265-270) over an
attempt-indexed gateway oracle: the body contains a single unconditional
`create_order` call and no retry loop, so the returned outcome is the first
attempt's and the number of gateway calls made is one. -/
def place_market_submit (gateway : Nat → GwResult) : GwResult × Nat :=
  (gateway 0, 1)

/-- Gateway oracle whose first attempt is a transient rejection and whose
second attempt would succeed. -/
def transient_then_ok : Nat → GwResult :=
  fun n => if n = 0 then GwResult.rejected_transient else GwResult.ok

/-- Counterexample to C6 as stated: against a gateway whose first attempt
fails transiently and whose retry would succeed, `place_market` returns
the transient rejection after exactly one call — it does not retry. -/
theorem place_market_retry_counterexample :
    place_market_submit transient_then_ok = (GwResult.rejected_transient, 1)
    ∧ transient_then_ok 1 = GwResult.ok
    ∧ decide ((place_market_submit transient_then_ok).1 = GwResult.ok)
        = false :=
  ⟨rfl, rfl, rfl⟩

/-- Gateway oracle rejecting every attempt permanently. -/
def permanent_reject : Nat → GwResult :=
  fun _ => GwResult.rejected_permanent

/-- Amended C6: `place_market` invokes the gateway exactly once and
propagates the first attempt's outcome immediately, whatever it is —
transient and permanent rejections alike are returned with no second
attempt and no fresh-price refetch. -/
theorem place_market_no_retry (gateway : Nat → GwResult) (r : GwResult)
    (h : gateway 0 = r) :
    place_market_submit gateway = (r, 1) := by
  unfold place_market_submit
  rw [h]

/-- Witness for the amended C6 on a transiently rejecting gateway whose
retry would succeed and on a permanently rejecting gateway: both get
exactly one call and their rejection back. -/
theorem place_market_no_retry_witness :
    place_market_submit transient_then_ok = (GwResult.rejected_transient, 1)
    ∧ place_market_submit permanent_reject
        = (GwResult.rejected_permanent, 1) :=
  ⟨place_market_no_retry transient_then_ok GwResult.rejected_transient rfl,
    place_market_no_retry permanent_reject GwResult.rejected_permanent rfl⟩

/-! ## Effective notional (webhook_server.py lines 22-24, 405-411) -/

/-- Mirror of the effective-notional computation of `tradingview`
(lines 405-411): start from the supplied notional and multiply by the
leverage only when `NOTIONAL_MODE == "margin"` and the leverage value is
truthy (present and nonzero). -/
def effective_notional (notional_mode : String) (notional : ℚ)
    (leverage : Option ℚ) : ℚ :=
  match leverage with
  | some l =>
    if notional_mode = "margin" ∧ ¬ l = 0 then notional * l else notional
  | none => notional

/-- Counterexample to C10 as stated: a supplied leverage of 0 is falsy in
Python, so in margin mode the effective notional stays 50 instead of the
claimed `notional * leverage = 50 * 0 = 0`. -/
theorem effective_notional_zero_leverage_counterexample :
    effective_notional "margin" 50 (some 0) = 50
    ∧ decide (effective_notional "margin" 50 (some 0) = 0) = false :=
  ⟨rfl, by decide⟩

/-- Amended C10: in margin mode a nonzero supplied leverage scales the
effective notional to `notional * leverage`; in notional mode, or when the
leverage is absent or zero, the effective notional is the supplied notional
unchanged. -/
theorem effective_notional_correct (notional l : ℚ) (mode : String) :
    (¬ l = 0 → effective_notional "margin" notional (some l) = notional * l)
    ∧ effective_notional "notional" notional (some l) = notional
    ∧ effective_notional "margin" notional (some 0) = notional
    ∧ effective_notional mode notional none = notional := by
  refine ⟨fun hl => ?_, rfl, rfl, rfl⟩
  unfold effective_notional
  dsimp only
  rw [if_pos ⟨rfl, hl⟩]

/-- Witness for the amended C10 at notional 50 and leverage 20. -/
theorem effective_notional_correct_witness :
    effective_notional "margin" 50 (some 20) = 50 * 20
    ∧ effective_notional "notional" 50 (some 20) = 50 :=
  ⟨(effective_notional_correct 50 20 "margin").1 (by norm_num),
    (effective_notional_correct 50 20 "margin").2.1⟩
